import Mathlib

/-!
Verification of the nquery job-query tool (src/main.rs, src/nomad.rs).

The Rust source is shallowly embedded: pure fragments become Lean
functions, `Result`/`panic!` become `Except`, the external HTTP layer
(ureq) is modelled as a response record supplied by the environment, and
the external jsonpath engine is an abstract selection function.
-/

namespace NQuery

/-- A JSON value, as produced by serde_json (`serde_json::Value`).
Numbers are modelled as integers; no claim depends on numeric values. -/
inductive Json where
  | null : Json
  | bool (b : Bool) : Json
  | num (n : Int) : Json
  | str (s : String) : Json
  | arr (xs : List Json) : Json
  | obj (fields : List (String × Json)) : Json

/-- Struct `JobListing` from src/nomad.rs (the summary shape returned by the
listing endpoint).  The Rust field `Type` keeps its name via guillemets. -/
structure JobListing where
  ID : String
  ParentID : String
  Name : String
  «Type» : String
  Status : String
  ParameterizedJob : Option Bool
  Periodic : Option Bool
deriving DecidableEq, Repr

/-- Struct `ParameterizedJob` from src/nomad.rs (the structured descriptor in a
full job record). -/
structure ParameterizedJob where
  Payload : String
  MetaRequired : Option (List String)
  MetaOptional : Option (List String)

/-- Struct `Periodic` from src/nomad.rs (the structured descriptor in a full job
record). -/
structure Periodic where
  Enabled : Bool
  Spec : String
  SpecType : String
  ProhibitOverlap : Bool

/-- Struct `Job` from src/nomad.rs: the full-detail shape.  `listing` is the
flattened `JobListing` part, the two descriptors override the summary's
bare booleans, and `extra` is the open-ended bag of unmodelled fields. -/
structure Job where
  listing : JobListing
  ParameterizedJob : Option ParameterizedJob
  Periodic : Option Periodic
  extra : List (String × Json)

/-- Rust `char::to_lowercase` restricted to ASCII (every string the
claims exercise is ASCII; `Char.toLower` lowers exactly the ASCII
uppercase letters, as Rust does on ASCII input). -/
def strToLower (s : String) : List Char :=
  s.data.map Char.toLower

/-- Rust `str::eq_ignore_ascii_case` (ASCII case folding on both sides). -/
def eq_ignore_ascii_case (a b : String) : Bool :=
  strToLower a == strToLower b

/-- The periodic-filter closure of `get_jobs` (src/main.rs lines 73-76):
`is_periodic == job.Periodic.unwrap_or(false)`. -/
def periodicPred (periodic_filter : Option Bool) (job : JobListing) : Bool :=
  match periodic_filter with
  | some is_periodic => is_periodic == job.Periodic.getD false
  | none => true

/-- The parameterized-filter closure of `get_jobs` (src/main.rs lines
77-80): `is_parameterized == job.ParameterizedJob.unwrap_or(false)`. -/
def parameterizedPred (parameterized_filter : Option Bool) (job : JobListing) : Bool :=
  match parameterized_filter with
  | some is_parameterized => is_parameterized == job.ParameterizedJob.getD false
  | none => true

/-- The name-prefix closure of `get_jobs` (src/main.rs lines 81-85):
`job.ID.to_lowercase().starts_with(&name_filter.to_lowercase())`. -/
def namePred (name_filter : String) (job : JobListing) : Bool :=
  (strToLower name_filter).isPrefixOf (strToLower job.ID)

/-- The status closure of `get_jobs` (src/main.rs lines 86-89). -/
def statusPred (status_filter : Option String) (job : JobListing) : Bool :=
  match status_filter with
  | some status => eq_ignore_ascii_case job.Status status
  | none => true

/-- The type closure of `get_jobs` (src/main.rs lines 90-93). -/
def typePred (job_type_filter : Option String) (job : JobListing) : Bool :=
  match job_type_filter with
  | some job_type => eq_ignore_ascii_case job.«Type» job_type
  | none => true

/-- The five chained `.filter(..)` calls of `get_jobs` (src/main.rs lines
71-93), in source order, before the per-job detail fetch. -/
def filterJobs (name_filter : String) (status_filter job_type_filter : Option String)
    (periodic_filter parameterized_filter : Option Bool)
    (job_listing : List JobListing) : List JobListing :=
  ((((job_listing.filter (periodicPred periodic_filter)).filter
      (parameterizedPred parameterized_filter)).filter
      (namePred name_filter)).filter
      (statusPred status_filter)).filter
      (typePred job_type_filter)

/-- The conjunction of the five predicates, stated as the spec states it
(§4.3: "All five filters are conjunctive (AND)"). -/
def matchesAllCriteria (name_filter : String) (status_filter job_type_filter : Option String)
    (periodic_filter parameterized_filter : Option Bool) (job : JobListing) : Bool :=
  periodicPred periodic_filter job
    && parameterizedPred parameterized_filter job
    && namePred name_filter job
    && statusPred status_filter job
    && typePred job_type_filter job

/-- How a computation ends abnormally: `err` models a returned
`anyhow::Error`, `panic` models a Rust panic (e.g. `.unwrap()` on `Err`
or an explicit `panic!`).  Both abort the command; they differ in which
`match` arms of `main` can observe them. -/
inductive Failure where
  | err (msg : String) : Failure
  | panic (msg : String) : Failure
deriving DecidableEq, Repr

/-- The `.unwrap()` call applied to a `Result` that carries a `Failure`: a
returned error becomes a panic whose message carries the error text; a
panic that already happened propagates unchanged. -/
def unwrapFailure : Failure → Failure
  | .err msg => .panic msg
  | .panic msg => .panic msg

/-- Function `handle_negative_flags` from src/main.rs lines 116-123.  The
`panic!("This shouldn't happen")` arm for `(true, true)` is modelled as
`Except.error`. -/
def handle_negative_flags (flag_tuple : Bool × Bool) : Except String (Option Bool) :=
  match flag_tuple with
  | (false, false) => .ok none
  | (true, false) => .ok (some true)
  | (false, true) => .ok (some false)
  | (_, _) => .error "This shouldn't happen"

/-- The `.map(|job| server.get_job(&job.ID).unwrap())` / `.collect()`
stage of `get_jobs` (src/main.rs line 94): fetch full detail for each
surviving summary in order; the first fetch failure panics, aborting the
whole collection. -/
def fetchAll (getJob : String → Except Failure Job) :
    List JobListing → Except Failure (List Job)
  | [] => .ok []
  | job :: rest =>
    match getJob job.ID with
    | .error f => .error (unwrapFailure f)
    | .ok detail =>
      match fetchAll getJob rest with
      | .error f => .error f
      | .ok details => .ok (detail :: details)

/-- Function `get_jobs` from src/main.rs lines 61-100, with the Job Repository
abstracted: `listJobs` is the outcome of `server.get_jobs()` and
`getJob` the outcome of `server.get_job(id)` (the `Nomad` wrapper
methods; the underlying repository functions live in src/nomad.rs).  The
`?` on the listing propagates an error; each detail fetch is
`.unwrap()`ed as in the source. -/
def get_jobs (listJobs : Except String (List JobListing))
    (getJob : String → Except Failure Job) (name_filter : String)
    (status_filter job_type_filter : Option String)
    (periodic_filter parameterized_filter : Option Bool) :
    Except Failure (List Job) :=
  match listJobs with
  | .error e => .error (.err e)
  | .ok job_listing =>
    fetchAll getJob
      (filterJobs name_filter status_filter job_type_filter periodic_filter
        parameterized_filter job_listing)

/-- A synthetic ureq error (ureq's `Error`), as observed through
`to_string()` and `status()` in src/nomad.rs line 74. -/
structure SyntheticError where
  status : Nat
  message : String

/-- A `ureq::Response` as observed by this program.  ureq returns a
`Response` from every `call()`: a response actually received from the
server carries `syntheticError = none` whatever its HTTP status, while a
request-level failure (connection refused, bad URL, ...) yields a
synthetic response carrying the error.  `bodyJson` is the outcome of
`into_json()` on the body (`none` when the body is not valid JSON). -/
structure UreqResponse where
  status : Nat
  statusText : String
  bodyJson : Option Json
  syntheticError : Option SyntheticError

/-- Struct `Client` from src/nomad.rs lines 8-11. -/
structure Client where
  address : String

/-- Occurrence of `pat` anywhere in `s` (Rust `str::contains` for a
string pattern). -/
def charsContain (s pat : List Char) : Bool :=
  match s with
  | [] => pat.isEmpty
  | _ :: rest => pat.isPrefixOf s || charsContain rest pat

/-- Rust `String::contains` on string slices. -/
def containsSubstring (s pat : String) : Bool :=
  charsContain s.data pat.data

/-- Impl `NomadClient::get for Client` from src/nomad.rs lines 65-80.
`issue` models `ureq::get(&url).call()`: the response the transport
produces for the resolved URL. -/
def Client.get (issue : String → UreqResponse) (self : Client) (resource : String) :
    Except String UreqResponse :=
  let url := self.address ++ "/v1/" ++ resource
  let resp := issue url
  match resp.syntheticError with
  | some err =>
    let msg :=
      if containsSubstring err.message "Connection refused" then
        "Could not connect to server at " ++ self.address
      else
        toString err.status ++ ": " ++ err.message
    .error msg
  | none => .ok resp

/-- The UTF-8 encoding of one scalar value, as a list of byte values
(RFC 3629; what the percent_encoding crate iterates over). -/
def utf8EncodeCharNat (c : Char) : List Nat :=
  let v := c.toNat
  if v < 128 then [v]
  else if v < 2048 then [192 + v / 64, 128 + v % 64]
  else if v < 65536 then [224 + v / 4096, 128 + v / 64 % 64, 128 + v % 64]
  else [240 + v / 262144, 128 + v / 4096 % 64, 128 + v / 64 % 64, 128 + v % 64]

/-- Membership of a byte in the complement of the percent_encoding
crate's `NON_ALPHANUMERIC` set: exactly the ASCII alphanumerics pass
through unencoded. -/
def isAsciiAlphanumericByte (b : Nat) : Bool :=
  (48 ≤ b && b ≤ 57) || (65 ≤ b && b ≤ 90) || (97 ≤ b && b ≤ 122)

/-- Upper-case hexadecimal digit for a nibble, as emitted by the
percent_encoding crate. -/
def hexDigitUpper (n : Nat) : Char :=
  if n < 10 then Char.ofNat (48 + n) else Char.ofNat (55 + n)

/-- The `%XX` escape for one byte. -/
def percentEncodeByte (b : Nat) : List Char :=
  ['%', hexDigitUpper (b / 16), hexDigitUpper (b % 16)]

/-- The characters of `utf8_percent_encode(s, NON_ALPHANUMERIC)`: each
UTF-8 byte of `s` passes through when ASCII alphanumeric and is `%XX`
escaped otherwise. -/
def percentEncodeChars (s : String) : List Char :=
  (s.data.flatMap utf8EncodeCharNat).flatMap fun b =>
    if isAsciiAlphanumericByte b then [Char.ofNat b] else percentEncodeByte b

/-- The expression `utf8_percent_encode(s, NON_ALPHANUMERIC).to_string()` as used in
src/nomad.rs line 102. -/
def utf8_percent_encode (s : String) : String :=
  String.mk (percentEncodeChars s)

/-- The listing resource path built by `get_jobs` in src/nomad.rs lines
99-103: `format!("{}?prefix={}", "jobs", ..encoded prefix..)`. -/
def get_jobs_path (pre : String) : String :=
  "jobs" ++ "?prefix=" ++ utf8_percent_encode pre

/-- Function `get_jobs` from src/nomad.rs lines 98-112.  `decodeListing` models
`serde_json::from_value::<Vec<JobListing>>`; its failure is the
`expect("failed to decode response")` panic. -/
def nomad_get_jobs (clientGet : String → Except String UreqResponse)
    (decodeListing : Json → Option (List JobListing)) (pre : String) :
    Except Failure (List JobListing) :=
  let path := get_jobs_path pre
  match clientGet path with
  | .ok resp =>
    match resp.bodyJson with
    | some buf =>
      match decodeListing buf with
      | some jobs => .ok jobs
      | none => .error (.panic "failed to decode response")
    | none => .error (.err "failed to read response")
  | .error err => .error (.err err)

/-- Function `get_job` from src/nomad.rs lines 119-125.  The
`client.get(..).unwrap()` turns a transport-classification error into a
panic; a body that is not valid JSON yields the
`"failed to read response"` error; `decodeJob` models
`serde_json::from_value::<Job>`, whose error the `?` propagates. -/
def nomad_get_job (clientGet : String → Except String UreqResponse)
    (decodeJob : Json → Except String Job) (id : String) : Except Failure Job :=
  match clientGet ("job/" ++ id) with
  | .error e => .error (.panic e)
  | .ok resp =>
    match resp.bodyJson with
    | some buf =>
      match decodeJob buf with
      | .ok job => .ok job
      | .error e => .error (.err e)
    | none => .error (.err "failed to read response")

/-- A non-synthetic HTTP 404 response: what ureq yields when the server
actually answers 404 with a non-JSON body (`synthetic_error()` is
`None`). -/
def notFoundResponse : UreqResponse :=
  { status := 404, statusText := "Not Found", bodyJson := none, syntheticError := none }

/-- A synthetic connection-refused response. -/
def refusedResponse : UreqResponse :=
  { status := 500, statusText := "Connection Failed", bodyJson := none,
    syntheticError := some { status := 500, message := "Connection refused (os error 111)" } }

/-- Map insertion as performed by `HashMap::insert` and
`serde_json::Map::insert`: replace the binding when the key is already
present, otherwise add a binding. -/
def insertKV {α : Type} (m : List (String × α)) (k : String) (v : α) :
    List (String × α) :=
  match m with
  | [] => [(k, v)]
  | (k', v') :: rest =>
    if k' == k then (k, v) :: rest else (k', v') :: insertKV rest k v

/-- serde serialization of an `Option` field (`None` becomes JSON
null). -/
def optJson {α : Type} (f : α → Json) : Option α → Json
  | none => Json.null
  | some a => f a

/-- serde serialization of the `ParameterizedJob` descriptor. -/
def ParameterizedJob.toJson (p : ParameterizedJob) : Json :=
  Json.obj [("Payload", Json.str p.Payload),
    ("MetaRequired", optJson (fun l => Json.arr (l.map Json.str)) p.MetaRequired),
    ("MetaOptional", optJson (fun l => Json.arr (l.map Json.str)) p.MetaOptional)]

/-- serde serialization of the `Periodic` descriptor. -/
def Periodic.toJson (p : Periodic) : Json :=
  Json.obj [("Enabled", Json.bool p.Enabled), ("Spec", Json.str p.Spec),
    ("SpecType", Json.str p.SpecType), ("ProhibitOverlap", Json.bool p.ProhibitOverlap)]

/-- The key/value pairs of the flattened `JobListing` part of a full
job. -/
def JobListing.jsonFields (l : JobListing) : List (String × Json) :=
  [("ID", Json.str l.ID), ("ParentID", Json.str l.ParentID),
   ("Name", Json.str l.Name), ("Type", Json.str l.«Type»),
   ("Status", Json.str l.Status),
   ("ParameterizedJob", optJson Json.bool l.ParameterizedJob),
   ("Periodic", optJson Json.bool l.Periodic)]

/-- The snapshot `serde_json::to_value(&job)`: the JSON snapshot of a full job, with
`#[serde(flatten)]` merging the listing part, the two structured
descriptors and the extra-field bag into one object (later duplicate
keys overwrite earlier ones, as in `serde_json::Map`). -/
def Job.toJson (j : Job) : Json :=
  Json.obj ((j.listing.jsonFields
      ++ [("ParameterizedJob", optJson ParameterizedJob.toJson j.ParameterizedJob),
          ("Periodic", optJson Periodic.toJson j.Periodic)]
      ++ j.extra).foldl (fun m kv => insertKV m kv.1 kv.2) [])

/-- The field-to-selector map of `main` (src/main.rs lines 147-151):
`fields.iter().map(|f| (f, format!("$.{}", f))).collect::<HashMap<_,_>>()`
— each requested output key bound to its dotted selector, a later
duplicate key overwriting an earlier one. -/
def mkPaths (fields : List String) : List (String × String) :=
  fields.foldl (fun acc f => insertKV acc f ("$." ++ f)) []

/-- The inner projection loop of `main` (src/main.rs lines 154-163): for
each output key and selector, resolve the selector against a fresh JSON
snapshot of the job, then insert every resolved node under the output
key, later nodes overwriting earlier ones.  `select` is the jsonpath
engine (`jsonpath::select`), returning the resolved nodes in its native
traversal order. -/
def jobView (select : Json → String → List Json)
    (paths : List (String × String)) (job : Job) : List (String × Json) :=
  paths.foldl
    (fun job_view ps =>
      let job_json := Job.toJson job
      (select job_json ps.2).foldl (fun v m => insertKV v ps.1 m) job_view)
    []

/-- The outer projection loop of `main` (src/main.rs lines 152-166): one
flattened mapping per input job, in input order. -/
def projectViews (select : Json → String → List Json) (fields : List String)
    (jobs : List Job) : List Json :=
  let paths := mkPaths fields
  jobs.map fun job => Json.obj (jobView select paths job)

/-- The projection stage as a state transformer over the job collection:
the pair is (the flattened mappings, the job records as the stage leaves
them).  The loop only reads each job — every resolution runs against the
fresh snapshot `Job.toJson job` — so the state component is the
unchanged collection. -/
def projectRun (select : Json → String → List Json) (fields : List String)
    (jobs : List Job) : List Json × List Job :=
  (projectViews select fields jobs, jobs)

/-- The CLI options `Opt` from src/main.rs lines 11-49. -/
structure Opt where
  status : Option String
  periodic : Bool
  no_periodic : Bool
  parameterized : Bool
  no_parameterized : Bool
  pretty : Bool
  job_type : Option String
  fields : List String
  job_name : String

/-- The observable outcome of one run of `main`: what was printed to
standard output (as a JSON value — pretty-printing only changes
whitespace), what was printed to standard error, and the exit code. -/
structure CommandResult where
  stdout : Option Json
  stderr : Option String
  exitCode : Nat

/-- Function `main` from src/main.rs lines 126-173.  A panic prints its message
on standard error and exits with code 101; the `Err` arm of the
`get_jobs` match prints the error and exits 1; on success the serialized
collection (full records, or the flattened views when fields were
requested) is printed on standard output and the process exits 0. -/
def main_run (listJobs : Except String (List JobListing))
    (getJob : String → Except Failure Job) (select : Json → String → List Json)
    (cmd : Opt) : CommandResult :=
  match handle_negative_flags (cmd.periodic, cmd.no_periodic) with
  | .error m => { stdout := none, stderr := some m, exitCode := 101 }
  | .ok periodic =>
    match handle_negative_flags (cmd.parameterized, cmd.no_parameterized) with
    | .error m => { stdout := none, stderr := some m, exitCode := 101 }
    | .ok parameterized =>
      match get_jobs listJobs getJob cmd.job_name cmd.status cmd.job_type
          periodic parameterized with
      | .error (.panic m) => { stdout := none, stderr := some m, exitCode := 101 }
      | .error (.err m) => { stdout := none, stderr := some m, exitCode := 1 }
      | .ok jobs =>
        let flattened :=
          if cmd.fields.isEmpty then Json.arr (jobs.map Job.toJson)
          else Json.arr (projectViews select cmd.fields jobs)
        { stdout := some flattened, stderr := none, exitCode := 0 }

/-- The CLI option record with every option left at its default. -/
def defaultOpt : Opt :=
  { status := none, periodic := false, no_periodic := false,
    parameterized := false, no_parameterized := false, pretty := false,
    job_type := none, fields := [], job_name := "" }

/-- A concrete job summary (the "example" job of the repository's test
vectors), used as input for witness theorems. -/
def exampleListing : JobListing :=
  { ID := "example", ParentID := "", Name := "example", «Type» := "service",
    Status := "running", ParameterizedJob := some false, Periodic := some false }

/-- A concrete full job record for the summary above, used as input for
witness theorems. -/
def exampleJob : Job :=
  { listing := exampleListing, ParameterizedJob := none, Periodic := none, extra := [] }

/-- Helper: the chained filters with every predicate unconstrained keep
every summary (in particular, the empty lowercased prefix is a prefix of
every lowercased identifier). -/
theorem filterJobs_unconstrained (l : List JobListing) :
    filterJobs "" none none none none l = l := by
  unfold filterJobs
  have h1 : l.filter (periodicPred none) = l := List.filter_true l
  rw [h1]
  have h2 : l.filter (parameterizedPred none) = l := List.filter_true l
  rw [h2]
  have h3 : l.filter (namePred "") = l := by
    refine List.filter_eq_self.mpr fun job _ => ?_
    show (strToLower "").isPrefixOf (strToLower job.ID) = true
    simp [strToLower, List.isPrefixOf]
  rw [h3]
  have h4 : l.filter (statusPred none) = l := List.filter_true l
  rw [h4]
  exact List.filter_true l

/-- Helper: when every surviving summary's detail fetch succeeds,
`fetchAll` returns all the details in order. -/
theorem fetchAll_ok (getJob : String → Except Failure Job) (detail : JobListing → Job)
    (l : List JobListing) (h : ∀ job ∈ l, getJob job.ID = .ok (detail job)) :
    fetchAll getJob l = .ok (l.map detail) := by
  induction l with
  | nil => rfl
  | cons job rest ih =>
    have hj : getJob job.ID = .ok (detail job) := h job (List.mem_cons_self job rest)
    have hr : fetchAll getJob rest = .ok (rest.map detail) :=
      ih fun j hjm => h j (List.mem_cons_of_mem job hjm)
    simp [fetchAll, hj, hr]

/-- Helper: the must-be-false selection is the complement of the
must-be-true selection, for the periodic predicate. -/
theorem periodic_false_filter (l : List JobListing) :
    l.filter (periodicPred (some false))
      = l.filter (fun job => !(periodicPred (some true) job)) :=
  List.filter_congr fun job _ => by
    cases h : job.Periodic.getD false <;> simp [periodicPred, h]

/-- Helper: the must-be-false selection is the complement of the
must-be-true selection, for the parameterized predicate. -/
theorem parameterized_false_filter (l : List JobListing) :
    l.filter (parameterizedPred (some false))
      = l.filter (fun job => !(parameterizedPred (some true) job)) :=
  List.filter_congr fun job _ => by
    cases h : job.ParameterizedJob.getD false <;> simp [parameterizedPred, h]

/-- C1: for both boolean attribute filters (periodic and parameterized),
constraining to must-be-true selects exactly the summaries whose
attribute equals `true` (an absent attribute counting as `false`), and
the must-be-true and must-be-false selections partition the
unconstrained selection: no overlap (no job satisfies both) and no gap
(their concatenation is a permutation of the unconstrained selection). -/
theorem tri_state_filter_law (l : List JobListing) :
    (l.filter (periodicPred (some true))
        = l.filter (fun job => job.Periodic.getD false == true)
      ∧ (l.filter (periodicPred (some true))
          ++ l.filter (periodicPred (some false))).Perm (l.filter (periodicPred none))
      ∧ ∀ job : JobListing,
          (periodicPred (some true) job && periodicPred (some false) job) = false)
    ∧ (l.filter (parameterizedPred (some true))
        = l.filter (fun job => job.ParameterizedJob.getD false == true)
      ∧ (l.filter (parameterizedPred (some true))
          ++ l.filter (parameterizedPred (some false))).Perm
            (l.filter (parameterizedPred none))
      ∧ ∀ job : JobListing,
          (parameterizedPred (some true) job && parameterizedPred (some false) job) = false) := by
  refine ⟨⟨?_, ?_, ?_⟩, ?_, ?_, ?_⟩
  · exact List.filter_congr fun job _ => by
      cases h : job.Periodic.getD false <;> simp [periodicPred, h]
  · rw [periodic_false_filter]
    have hN : l.filter (periodicPred none) = l := List.filter_true l
    rw [hN]
    exact List.filter_append_perm _ l
  · intro job
    cases h : job.Periodic.getD false <;> simp [periodicPred, h]
  · exact List.filter_congr fun job _ => by
      cases h : job.ParameterizedJob.getD false <;> simp [parameterizedPred, h]
  · rw [parameterized_false_filter]
    have hN : l.filter (parameterizedPred none) = l := List.filter_true l
    rw [hN]
    exact List.filter_append_perm _ l
  · intro job
    cases h : job.ParameterizedJob.getD false <;> simp [parameterizedPred, h]

/-- C3: a summary survives the chained filters of `get_jobs` exactly when
it satisfies all five predicates conjunctively (tri-state periodic,
tri-state parameterized, case-insensitive name-prefix match on the
identifier, case-insensitive exact status match when constrained,
case-insensitive exact type match when constrained). -/
theorem filter_conjunctive (name_filter : String)
    (status_filter job_type_filter : Option String)
    (periodic_filter parameterized_filter : Option Bool) (l : List JobListing) :
    filterJobs name_filter status_filter job_type_filter periodic_filter
        parameterized_filter l
      = l.filter (matchesAllCriteria name_filter status_filter job_type_filter
          periodic_filter parameterized_filter) := by
  unfold filterJobs
  rw [List.filter_filter, List.filter_filter, List.filter_filter, List.filter_filter]
  refine List.filter_congr fun job _ => ?_
  simp only [matchesAllCriteria]
  cases periodicPred periodic_filter job <;>
    cases parameterizedPred parameterized_filter job <;>
      cases namePred name_filter job <;>
        cases statusPred status_filter job <;>
          cases typePred job_type_filter job <;> rfl

/-- C2: calling `get_jobs` with every predicate unconstrained (empty
name prefix, no status, no type, both tri-states unconstrained) on a
successfully fetched listing returns the full-detail record of every job
in that listing, in listing order. -/
theorem get_jobs_unconstrained_returns_all (listing : List JobListing)
    (getJob : String → Except Failure Job) (detail : JobListing → Job)
    (h : ∀ job ∈ listing, getJob job.ID = .ok (detail job)) :
    get_jobs (.ok listing) getJob "" none none none none = .ok (listing.map detail) := by
  show fetchAll getJob (filterJobs "" none none none none listing)
    = .ok (listing.map detail)
  rw [filterJobs_unconstrained]
  exact fetchAll_ok getJob detail listing h

/-- Witness for C2 at a concrete one-job listing. -/
theorem get_jobs_unconstrained_witness :
    get_jobs (.ok [exampleListing]) (fun _ => .ok exampleJob) "" none none none none
      = .ok ([exampleListing].map fun _ => exampleJob) :=
  get_jobs_unconstrained_returns_all [exampleListing] (fun _ => .ok exampleJob)
    (fun _ => exampleJob) (fun _ _ => rfl)

/-- C4: `handle_negative_flags` maps `(false, false)` to unconstrained,
`(true, false)` to must-be-true and `(false, true)` to must-be-false;
under the CLI-enforced mutual exclusivity of the two flags, the fatal
`panic!` arm for `(true, true)` is unreachable: the result is always
`.ok`. -/
theorem handle_negative_flags_spec :
    handle_negative_flags (false, false) = .ok none
    ∧ handle_negative_flags (true, false) = .ok (some true)
    ∧ handle_negative_flags (false, true) = .ok (some false)
    ∧ ∀ pos neg : Bool, ¬(pos = true ∧ neg = true) →
        ∃ v, handle_negative_flags (pos, neg) = .ok v := by
  refine ⟨rfl, rfl, rfl, fun pos neg h => ?_⟩
  cases pos <;> cases neg
  · exact ⟨none, rfl⟩
  · exact ⟨some false, rfl⟩
  · exact ⟨some true, rfl⟩
  · exact absurd ⟨rfl, rfl⟩ h

/-- Witness for C4 at the concrete flag pair `(false, true)`. -/
theorem handle_negative_flags_witness :
    handle_negative_flags (false, true) = .ok (some false)
    ∧ ∃ v, handle_negative_flags (false, true) = .ok v :=
  ⟨handle_negative_flags_spec.2.2.1,
    handle_negative_flags_spec.2.2.2 false true (by decide)⟩

/-- Helper: a scalar value is below 0x110000. -/
theorem char_toNat_lt (c : Char) : c.toNat < 1114112 := by
  have h := c.valid
  rcases h with h | ⟨h1, h2⟩
  · have := @UInt32.toNat_lt_of_lt c.val 55296 (by decide) h
    simp only [Char.toNat]
    omega
  · have := @UInt32.toNat_lt_of_lt c.val 1114112 (by decide) h2
    simp only [Char.toNat]
    omega

/-- Helper: UTF-8 encoding emits byte values. -/
theorem utf8EncodeCharNat_lt_256 (c : Char) : ∀ b ∈ utf8EncodeCharNat c, b < 256 := by
  intro b hb
  have hv := char_toNat_lt c
  simp only [utf8EncodeCharNat] at hb
  split at hb
  · simp only [List.mem_singleton] at hb
    omega
  · split at hb
    · simp only [List.mem_cons, List.not_mem_nil, or_false] at hb
      rcases hb with rfl | rfl <;> omega
    · split at hb
      · simp only [List.mem_cons, List.not_mem_nil, or_false] at hb
        rcases hb with rfl | rfl | rfl <;> omega
      · simp only [List.mem_cons, List.not_mem_nil, or_false] at hb
        rcases hb with rfl | rfl | rfl | rfl <;> omega

/-- Helper: an upper-case hex digit is alphanumeric. -/
theorem hexDigitUpper_alnum : ∀ n < 16,
    ((hexDigitUpper n).isAlphanum || hexDigitUpper n == '%') = true := by
  decide

set_option maxRecDepth 4096 in
/-- Helper: a pass-through byte yields an alphanumeric character. -/
theorem alnum_byte_char : ∀ b < 256, isAsciiAlphanumericByte b = true →
    ((Char.ofNat b).isAlphanum || Char.ofNat b == '%') = true := by
  decide

/-- Helper: every character the percent encoder emits is ASCII
alphanumeric or the escape marker. -/
theorem percentEncodeChars_alnum (s : String) :
    ∀ c ∈ percentEncodeChars s, (c.isAlphanum || c == '%') = true := by
  intro c hc
  simp only [percentEncodeChars, List.mem_flatMap] at hc
  obtain ⟨b, ⟨ch, hch, hbch⟩, hcb⟩ := hc
  have hblt : b < 256 := utf8EncodeCharNat_lt_256 ch b hbch
  by_cases hal : isAsciiAlphanumericByte b = true
  · rw [if_pos hal] at hcb
    simp only [List.mem_singleton] at hcb
    subst hcb
    exact alnum_byte_char b hblt hal
  · rw [if_neg hal] at hcb
    simp only [percentEncodeByte, List.mem_cons, List.not_mem_nil, or_false] at hcb
    rcases hcb with rfl | rfl | rfl
    · decide
    · exact hexDigitUpper_alnum _ (by omega)
    · exact hexDigitUpper_alnum _ (by omega)

/-- C9: for every prefix, the listing request path is exactly the fixed
`jobs?prefix=` followed by the percent-encoding of the prefix as a
single token: every character of the encoded token is ASCII alphanumeric
or `%` (so the token contains no separator and can never split into
multiple query parameters, and every non-alphanumeric character of the
prefix has been encoded), and concretely the prefix `a/b c` becomes
`a%2Fb%20c`, with the slash and the space percent-encoded. -/
theorem prefix_percent_encoded_single_token (pre : String) :
    get_jobs_path pre = "jobs?prefix=" ++ utf8_percent_encode pre
    ∧ (utf8_percent_encode pre).data.all (fun c => c.isAlphanum || c == '%') = true
    ∧ utf8_percent_encode "a/b c" = "a%2Fb%20c" := by
  refine ⟨rfl, ?_, by decide⟩
  rw [List.all_eq_true]
  intro c hc
  exact percentEncodeChars_alnum pre c hc

/-- C10: for the empty prefix (the CLI default), the listing resource
path still carries the prefix query parameter with an empty value rather
than omitting it. -/
theorem empty_prefix_keeps_parameter : get_jobs_path "" = "jobs?prefix=" := by
  decide

/-- Counterexample to C5 as stated: a 4xx response that the server
actually returned (ureq marks it non-synthetic) is NOT classified as an
HTTP-error failure carrying status code and body text — `Client::get`
returns it as a success.  The repository's own test
`test_get_job_missing` pins this: a 400 response surfaces as the decode
failure `"failed to read response"`, not as a status report. -/
theorem http_4xx_classified_as_success :
    Client.get (fun _ => notFoundResponse) { address := "http://127.0.0.1:4646" }
        "job/example"
      = .ok notFoundResponse
    ∧ 400 ≤ notFoundResponse.status := by
  exact ⟨rfl, by decide⟩

/-- C5 (amended): `Client::get` classifies each GET by the synthetic
error of the ureq response, not by its HTTP status: a synthetic error
whose text contains "Connection refused" is reported with a message
naming the configured address; any other synthetic error is reported
with the error's own status code and text; every actually-received
response — 2xx and 4xx/5xx alike — is returned as success; and a body
that cannot be read as JSON on a returned per-job response is reported
by the repository as the distinct `"failed to read response"` failure,
never silently swallowed. -/
theorem get_outcome_classification (issue : String → UreqResponse) (client : Client)
    (resource : String) :
    (∀ e, (issue (client.address ++ "/v1/" ++ resource)).syntheticError = some e →
        containsSubstring e.message "Connection refused" = true →
        Client.get issue client resource
          = .error ("Could not connect to server at " ++ client.address))
    ∧ (∀ e, (issue (client.address ++ "/v1/" ++ resource)).syntheticError = some e →
        containsSubstring e.message "Connection refused" = false →
        Client.get issue client resource
          = .error (toString e.status ++ ": " ++ e.message))
    ∧ ((issue (client.address ++ "/v1/" ++ resource)).syntheticError = none →
        Client.get issue client resource
          = .ok (issue (client.address ++ "/v1/" ++ resource)))
    ∧ (∀ decodeJob id,
        (issue (client.address ++ "/v1/" ++ ("job/" ++ id))).syntheticError = none →
        (issue (client.address ++ "/v1/" ++ ("job/" ++ id))).bodyJson = none →
        nomad_get_job (Client.get issue client) decodeJob id
          = .error (.err "failed to read response")) := by
  refine ⟨?_, ?_, ?_, ?_⟩
  · intro e he hc
    simp [Client.get, he, hc]
  · intro e he hc
    simp [Client.get, he, hc]
  · intro he
    simp [Client.get, he]
  · intro decodeJob id he hb
    simp [nomad_get_job, Client.get, he, hb]

/-- Witness for the amended C5 at concrete responses: a synthetic
connection-refused error names the configured address, and a
non-synthetic 404 whose body is not JSON surfaces from the repository as
`"failed to read response"`. -/
theorem get_outcome_classification_witness :
    Client.get (fun _ => refusedResponse) { address := "http://127.0.0.1:4646" }
        "jobs?prefix="
      = .error "Could not connect to server at http://127.0.0.1:4646"
    ∧ nomad_get_job
        (Client.get (fun _ => notFoundResponse) { address := "http://127.0.0.1:4646" })
        (fun _ => .error "unused") "example"
      = .error (.err "failed to read response") :=
  ⟨(get_outcome_classification (fun _ => refusedResponse)
      { address := "http://127.0.0.1:4646" } "jobs?prefix=").1
        { status := 500, message := "Connection refused (os error 111)" } rfl (by decide),
    (get_outcome_classification (fun _ => notFoundResponse)
      { address := "http://127.0.0.1:4646" } "job/example").2.2.2
        (fun _ => .error "unused") "example" rfl rfl⟩

/-- Helper: the first failing detail fetch aborts the whole collection
with a panic carrying that fetch's error message. -/
theorem fetchAll_first_error (getJob : String → Except Failure Job)
    (post : List JobListing) (j : JobListing) (msg : String)
    (hfail : getJob j.ID = .error (.err msg)) :
    ∀ pre : List JobListing, (∀ k ∈ pre, ∃ jb, getJob k.ID = .ok jb) →
      fetchAll getJob (pre ++ j :: post) = .error (.panic msg) := by
  intro pre
  induction pre with
  | nil =>
    intro _
    simp [fetchAll, hfail, unwrapFailure]
  | cons k rest ih =>
    intro hpre
    obtain ⟨jb, hk⟩ := hpre k (List.mem_cons_self k rest)
    have hr := ih fun k' hk' => hpre k' (List.mem_cons_of_mem k hk')
    simp [fetchAll, hk, hr]

/-- C6: when the detail fetch of a surviving job fails, the whole
command aborts: `get_jobs` returns no job at all (in particular no job
after the failing one), nothing is printed to standard output, one
message carrying the fetch failure is printed to standard error, and the
process exits with the non-zero panic status. -/
theorem detail_fetch_failure_aborts (listing : List JobListing)
    (getJob : String → Except Failure Job) (select : Json → String → List Json)
    (cmd : Opt) (pv qv : Option Bool) (pre post : List JobListing)
    (j : JobListing) (msg : String)
    (hper : handle_negative_flags (cmd.periodic, cmd.no_periodic) = .ok pv)
    (hpar : handle_negative_flags (cmd.parameterized, cmd.no_parameterized) = .ok qv)
    (hsurv : filterJobs cmd.job_name cmd.status cmd.job_type pv qv listing
      = pre ++ j :: post)
    (hpre : ∀ k ∈ pre, ∃ jb, getJob k.ID = .ok jb)
    (hfail : getJob j.ID = .error (.err msg)) :
    get_jobs (.ok listing) getJob cmd.job_name cmd.status cmd.job_type pv qv
      = .error (.panic msg)
    ∧ main_run (.ok listing) getJob select cmd
      = { stdout := none, stderr := some msg, exitCode := 101 } := by
  have hget : get_jobs (.ok listing) getJob cmd.job_name cmd.status cmd.job_type pv qv
      = .error (.panic msg) := by
    show fetchAll getJob
        (filterJobs cmd.job_name cmd.status cmd.job_type pv qv listing)
      = .error (.panic msg)
    rw [hsurv]
    exact fetchAll_first_error getJob post j msg hfail pre hpre
  refine ⟨hget, ?_⟩
  simp [main_run, hper, hpar, hget]

/-- Witness for C6: a one-job listing whose sole survivor's per-job
endpoint answers a non-synthetic 404 with a non-JSON body; the run
prints nothing on standard output, reports the read failure on standard
error and exits non-zero. -/
theorem detail_fetch_failure_witness :
    get_jobs (.ok [exampleListing])
        (nomad_get_job (fun _ => .ok notFoundResponse) (fun _ => .error "unused"))
        "" none none none none
      = .error (.panic "failed to read response")
    ∧ main_run (.ok [exampleListing])
        (nomad_get_job (fun _ => .ok notFoundResponse) (fun _ => .error "unused"))
        (fun _ _ => []) defaultOpt
      = { stdout := none, stderr := some "failed to read response", exitCode := 101 } :=
  detail_fetch_failure_aborts [exampleListing]
    (nomad_get_job (fun _ => .ok notFoundResponse) (fun _ => .error "unused"))
    (fun _ _ => []) defaultOpt none none [] [] exampleListing
    "failed to read response" rfl rfl rfl
    (fun k hk => absurd hk (List.not_mem_nil k)) rfl

/-- Helper: looking up the key just inserted yields the inserted
value. -/
theorem lookup_insertKV_self {α : Type} (m : List (String × α)) (k : String) (v : α) :
    (insertKV m k v).lookup k = some v := by
  induction m with
  | nil => simp [insertKV, List.lookup]
  | cons kv rest ih =>
    obtain ⟨k', v'⟩ := kv
    by_cases h : k' = k
    · subst h
      simp [insertKV, List.lookup]
    · have hb : (k' == k) = false := beq_eq_false_iff_ne.mpr h
      simp only [insertKV, hb, if_false, List.lookup]
      have hb2 : (k == k') = false := beq_eq_false_iff_ne.mpr (Ne.symm h)
      simp [hb2, ih]

/-- Helper: inserting under a different key leaves a lookup unchanged. -/
theorem lookup_insertKV_other {α : Type} (m : List (String × α)) (k key : String)
    (v : α) (h : k ≠ key) : (insertKV m k v).lookup key = m.lookup key := by
  induction m with
  | nil => simp [insertKV, List.lookup, beq_eq_false_iff_ne.mpr (Ne.symm h)]
  | cons kv rest ih =>
    obtain ⟨k', v'⟩ := kv
    by_cases hk : k' = k
    · subst hk
      simp [insertKV, List.lookup, beq_eq_false_iff_ne.mpr (Ne.symm h)]
    · have hb : (k' == k) = false := beq_eq_false_iff_ne.mpr hk
      simp only [insertKV, hb, if_false, List.lookup]
      by_cases hk2 : key = k'
      · simp [hk2]
      · simp [beq_eq_false_iff_ne.mpr hk2, ih]

/-- Helper: folding a list of values into the same key leaves the last
value under that key, or the prior binding when the list is empty. -/
theorem lookup_foldl_insert_self {α : Type} (k : String) (ms : List α) :
    ∀ v0 : List (String × α),
      ((ms.foldl (fun v m => insertKV v k m) v0).lookup k)
        = (match ms.getLast? with
           | some m => some m
           | none => v0.lookup k) := by
  induction ms with
  | nil => intro v0; rfl
  | cons m ms ih =>
    intro v0
    have h1 := ih (insertKV v0 k m)
    cases ms with
    | nil =>
      simp [lookup_insertKV_self]
    | cons m2 ms2 =>
      simp only [List.foldl_cons] at h1 ⊢
      rw [h1, List.getLast?_cons_cons]
      cases hL : (m2 :: ms2).getLast? with
      | none =>
        exact absurd (List.getLast?_eq_none_iff.mp hL) (List.cons_ne_nil m2 ms2)
      | some x => rfl

/-- Helper: folding values into a different key leaves a lookup
unchanged. -/
theorem lookup_foldl_insert_other {α : Type} (k key : String) (h : k ≠ key)
    (ms : List α) :
    ∀ v0 : List (String × α),
      ((ms.foldl (fun v m => insertKV v k m) v0).lookup key) = v0.lookup key := by
  induction ms with
  | nil => intro v0; rfl
  | cons m ms ih =>
    intro v0
    simp only [List.foldl_cons]
    rw [ih (insertKV v0 k m), lookup_insertKV_other v0 k key m h]

/-- Helper: the outer projection fold does not touch keys that are not
requested. -/
theorem outer_fold_other (select : Json → String → List Json) (job : Job)
    (key : String) :
    ∀ (paths : List (String × String)) (v0 : List (String × Json)),
      key ∉ paths.map Prod.fst →
      ((paths.foldl
          (fun job_view ps =>
            (select (Job.toJson job) ps.2).foldl (fun v m => insertKV v ps.1 m)
              job_view) v0).lookup key)
        = v0.lookup key := by
  intro paths
  induction paths with
  | nil => intro v0 _; rfl
  | cons p rest ih =>
    intro v0 hkey
    simp only [List.map_cons, List.mem_cons, not_or] at hkey
    obtain ⟨h1, h2⟩ := hkey
    simp only [List.foldl_cons]
    rw [ih _ h2, lookup_foldl_insert_other p.1 key (fun hc => h1 hc.symm) _ v0]

/-- Helper: under distinct requested keys, the flattened view binds the
key of each requested pair to the last node its selector resolved to,
and omits it when the selector resolved to nothing. -/
theorem outer_fold_self (select : Json → String → List Json) (job : Job)
    (key sel : String) :
    ∀ (paths : List (String × String)) (v0 : List (String × Json)),
      (paths.map Prod.fst).Nodup → (key, sel) ∈ paths → v0.lookup key = none →
      ((paths.foldl
          (fun job_view ps =>
            (select (Job.toJson job) ps.2).foldl (fun v m => insertKV v ps.1 m)
              job_view) v0).lookup key)
        = (select (Job.toJson job) sel).getLast? := by
  intro paths
  induction paths with
  | nil => intro v0 _ hmem _; exact absurd hmem (List.not_mem_nil _)
  | cons p rest ih =>
    intro v0 hnd hmem h0
    simp only [List.map_cons, List.nodup_cons] at hnd
    obtain ⟨hp, hnd'⟩ := hnd
    rcases List.mem_cons.mp hmem with heq | hmem'
    · subst heq
      simp only [List.foldl_cons]
      rw [outer_fold_other select job key rest _ hp]
      rw [lookup_foldl_insert_self key (select (Job.toJson job) sel) v0]
      cases hL : (select (Job.toJson job) sel).getLast? with
      | none => exact h0
      | some m => rfl
    · have hkmem : key ∈ rest.map Prod.fst := by
        exact List.mem_map.mpr ⟨(key, sel), hmem', rfl⟩
      have hkne : p.1 ≠ key := fun hc => hp (hc ▸ hkmem)
      simp only [List.foldl_cons]
      refine ih _ hnd' hmem' ?_
      rw [lookup_foldl_insert_other p.1 key hkne _ v0]
      exact h0

/-- Helper: the keys of a map stay the same or gain the inserted key. -/
theorem mem_keys_insertKV {α : Type} (m : List (String × α)) (k : String) (v : α)
    (k2 : String) :
    k2 ∈ (insertKV m k v).map Prod.fst ↔ k2 = k ∨ k2 ∈ m.map Prod.fst := by
  induction m with
  | nil => simp [insertKV]
  | cons kv rest ih =>
    obtain ⟨k', v'⟩ := kv
    by_cases h : k' = k
    · subst h
      simp [insertKV]
    · have hb : (k' == k) = false := beq_eq_false_iff_ne.mpr h
      simp [insertKV, hb, ih]
      tauto

/-- Helper: insertion preserves distinctness of the keys. -/
theorem nodup_keys_insertKV {α : Type} (m : List (String × α)) (k : String) (v : α)
    (h : (m.map Prod.fst).Nodup) : ((insertKV m k v).map Prod.fst).Nodup := by
  induction m with
  | nil => simp [insertKV]
  | cons kv rest ih =>
    obtain ⟨k', v'⟩ := kv
    simp only [List.map_cons, List.nodup_cons] at h
    obtain ⟨hk', hrest⟩ := h
    by_cases hkk : k' = k
    · subst hkk
      have hstep : insertKV ((k', v') :: rest) k' v = (k', v) :: rest := by
        simp [insertKV]
      rw [hstep]
      simp only [List.map_cons, List.nodup_cons]
      exact ⟨hk', hrest⟩
    · have hb : (k' == k) = false := beq_eq_false_iff_ne.mpr hkk
      have hstep : insertKV ((k', v') :: rest) k v = (k', v') :: insertKV rest k v := by
        simp [insertKV, hb]
      rw [hstep]
      simp only [List.map_cons, List.nodup_cons]
      refine ⟨?_, ih hrest⟩
      rw [mem_keys_insertKV]
      rintro (rfl | h2)
      · exact hkk rfl
      · exact hk' h2

/-- Helper: the requested output keys are pairwise distinct (they come
out of a `HashMap`). -/
theorem mkPaths_nodup (fields : List String) :
    ((mkPaths fields).map Prod.fst).Nodup := by
  have general : ∀ (fs : List String) (acc : List (String × String)),
      (acc.map Prod.fst).Nodup →
      ((fs.foldl (fun a f => insertKV a f ("$." ++ f)) acc).map Prod.fst).Nodup := by
    intro fs
    induction fs with
    | nil => intro acc h; exact h
    | cons f rest ih =>
      intro acc h
      exact ih _ (nodup_keys_insertKV acc f ("$." ++ f) h)
  exact general fields [] List.nodup_nil

/-- C7: one flattened mapping is produced per input job, in input order;
for every requested output key and its selector, the i-th mapping binds
the key to the last node the path engine resolved on the i-th job, and
omits the key when the path resolved to zero nodes (`getLast?` of the
resolved nodes is `none` exactly then). -/
theorem projection_last_match_or_omit (select : Json → String → List Json)
    (fields : List String) (jobs : List Job) (key sel : String) (i : Nat)
    (job_i : Job) (hmem : (key, sel) ∈ mkPaths fields)
    (hj : jobs[i]? = some job_i) :
    (projectViews select fields jobs).length = jobs.length
    ∧ (projectViews select fields jobs)[i]?
        = some (Json.obj (jobView select (mkPaths fields) job_i))
    ∧ (jobView select (mkPaths fields) job_i).lookup key
        = (select (Job.toJson job_i) sel).getLast? := by
  refine ⟨by simp [projectViews], ?_, ?_⟩
  · simp [projectViews, List.getElem?_map, hj]
  · exact outer_fold_self select job_i key sel (mkPaths fields) []
      (mkPaths_nodup fields) hmem rfl

/-- A one-match path engine used by the C7 witness. -/
def selectIdOnly : Json → String → List Json :=
  fun _ s => if s == "$.ID" then [Json.str "example"] else []

/-- Witness for C7: projecting the field set `["ID"]` over the one-job
collection binds `ID` to the single resolved node. -/
theorem projection_last_match_witness :
    (projectViews selectIdOnly ["ID"] [exampleJob]).length = 1
    ∧ (projectViews selectIdOnly ["ID"] [exampleJob])[0]?
        = some (Json.obj (jobView selectIdOnly (mkPaths ["ID"]) exampleJob))
    ∧ (jobView selectIdOnly (mkPaths ["ID"]) exampleJob).lookup "ID"
        = (selectIdOnly (Job.toJson exampleJob) "$.ID").getLast? :=
  projection_last_match_or_omit selectIdOnly ["ID"] [exampleJob] "ID" "$.ID" 0
    exampleJob (by decide) rfl

/-- C8: projection is idempotent and side-effect free: the stage leaves
the job collection unchanged, and running it again over the collection a
first run leaves behind produces the identical outcome.  The embedding
threads the collection through `projectRun` to make the absence of
mutation explicit; every resolution inside `jobView` operates on the
fresh snapshot `Job.toJson job` of the unchanged record. -/
theorem projection_idempotent_no_mutation (select : Json → String → List Json)
    (fields : List String) (jobs : List Job) :
    projectRun select fields ((projectRun select fields jobs).2)
      = projectRun select fields jobs
    ∧ (projectRun select fields jobs).2 = jobs :=
  ⟨rfl, rfl⟩

end NQuery
